import Mathlib

/-!
# HydroLumina — verification of the detection-and-correlation engine

Shallow embedding of the HydroLumina repository's analytic core, checked
against its natural-language specification.

The repository ships the React frontend (`src/frontend/src/App.js` and the
MapView component); the FastAPI backend that implements the anomaly
detector, flow estimator, differential diagnostics, geospatial correlator
and cost estimator is not part of the available sources, so those
components are modelled from the specification (their doc comments say
so); definitions taken from the frontend source are translated directly.

Floating-point arithmetic of the JavaScript source is idealised over `ℝ`;
discrete logic (zone sets, telemetry windows, app state) is embedded
computably over `ℚ`, `ℕ`, `Bool` and `String`.
-/

namespace HydroLumina

/-! ## Definitions

### Geospatial distance

`calculateDistance` appears verbatim (twice) in `src/frontend/src/App.js`:
the haversine form using `Math.atan2`, with Earth radius `R = 6371` km.
The spec instead states the arcsine form
`2R·asin(√(sin²(Δlat/2) + cos lat1 · cos lat2 · sin²(Δlon/2)))`. -/

/-- Two-argument arctangent with the semantics of JavaScript `Math.atan2 y x`
(restricted to real inputs): the angle of the point `(x, y)`. -/
noncomputable def atan2 (y x : ℝ) : ℝ :=
  if 0 < x then Real.arctan (y / x)
  else if x < 0 then
    (if 0 ≤ y then Real.arctan (y / x) + Real.pi else Real.arctan (y / x) - Real.pi)
  else
    (if 0 < y then Real.pi / 2 else if y < 0 then -(Real.pi / 2) else 0)

/-- `calculateDistance(lat1, lon1, lat2, lon2)` from `src/frontend/src/App.js`
(lines 790–800 and 1052–1062): haversine distance in km via `Math.atan2`. -/
noncomputable def calculateDistance (lat1 lon1 lat2 lon2 : ℝ) : ℝ :=
  let R : ℝ := 6371
  let dLat : ℝ := (lat2 - lat1) * Real.pi / 180
  let dLon : ℝ := (lon2 - lon1) * Real.pi / 180
  let a : ℝ :=
    Real.sin (dLat / 2) * Real.sin (dLat / 2) +
      Real.cos (lat1 * Real.pi / 180) * Real.cos (lat2 * Real.pi / 180) *
        (Real.sin (dLon / 2) * Real.sin (dLon / 2))
  let c : ℝ := 2 * atan2 (Real.sqrt a) (Real.sqrt (1 - a))
  R * c

/-- Degrees to radians. -/
noncomputable def deg2rad (x : ℝ) : ℝ := x * Real.pi / 180

/-- The spec's definition of the great-circle distance (§4.4):
`distance = 2R·asin(√(sin²(Δlat/2) + cos(lat1)·cos(lat2)·sin²(Δlon/2)))`,
`R = 6371` km, coordinates in degrees. -/
noncomputable def haversineSpec (lat1 lon1 lat2 lon2 : ℝ) : ℝ :=
  let R : ℝ := 6371
  let a : ℝ :=
    Real.sin ((deg2rad lat2 - deg2rad lat1) / 2) ^ 2 +
      Real.cos (deg2rad lat1) * Real.cos (deg2rad lat2) *
        Real.sin ((deg2rad lon2 - deg2rad lon1) / 2) ^ 2
  2 * R * Real.arcsin (Real.sqrt a)

/-- The haversine radicand, as a function of the two latitudes and the
longitude difference, all in radians. -/
noncomputable def havA (p1 p2 d : ℝ) : ℝ :=
  Real.sin ((p2 - p1) / 2) ^ 2 + Real.cos p1 * Real.cos p2 * Real.sin (d / 2) ^ 2

/-! ### Flow estimator (§4.1)

Modelled from the spec: the backend flow estimator is not among the
available sources.  Per §4.1, below an idle threshold `P0` the flow is 0,
above it the flow scales monotonically (affine model chosen here) with
power, capped at a maximum rated flow; negative power is rejected with
`InvalidInputError`.  The numeric constants are configuration (the spec's
§9 notes they are not fixed by the available material). -/

inductive FlowError
  | invalidInput
deriving DecidableEq

/-- Idle threshold `P0` in kW (configuration). -/
def P0 : ℚ := 2

/-- Maximum rated flow in LPM (configuration). -/
def maxRatedFlow : ℚ := 600

/-- Affine flow-per-power slope in LPM/kW (configuration). -/
def flowSlope : ℚ := 150

/-- Modelled from the spec: `estimate_flow(power_kw) -> flow_lpm` (§4.1). -/
def estimate_flow (power_kw : ℚ) : Except FlowError ℚ :=
  if power_kw < 0 then .error .invalidInput
  else if power_kw < P0 then .ok 0
  else .ok (min maxRatedFlow (flowSlope * (power_kw - P0)))

/-! ### Anomaly detector (§4.2)

Modelled from the spec: the backend anomaly detector is not among the
available sources.  `score_window` scores a telemetry window against a
reference profile (here: the mean power of the input series, rebuilt
per request as §5 allows); when `simulate_leak` is set, a synthetic
excess-draw segment (the final fifth of the window) is injected into the
series before scoring, deterministically in the input length.  An empty
series raises `InsufficientDataError`; a series shorter than the minimum
window size yields all-normal verdicts. -/

structure TelemetrySample where
  timestamp : ℕ
  power_kw : ℚ
deriving DecidableEq

structure AnomalyVerdict where
  timestamp : ℕ
  is_anomaly : Bool
  score : ℚ
deriving DecidableEq

inductive DetectorError
  | insufficientData
deriving DecidableEq

/-- Minimum window size (configuration). -/
def window_min : ℕ := 10

/-- Contamination threshold on the deviation score (configuration). -/
def anomalyThreshold : ℚ := 2

/-- Base excess draw injected by the leak simulation (configuration). -/
def leakExcessDraw : ℚ := 3

/-- Add `delta` to the power of every sample at position `≥ start`,
`i` being the position of the list head. -/
def injectFrom (delta : ℚ) (start : ℕ) : ℕ → List TelemetrySample → List TelemetrySample
  | _, [] => []
  | i, s :: rest =>
    (if start ≤ i then { s with power_kw := s.power_kw + delta } else s) ::
      injectFrom delta start (i + 1) rest

/-- Modelled from the spec: inject a synthetic excess-draw segment into the
series (§4.2).  The final fifth of the window receives an excess of the
series' own spread plus `leakExcessDraw`. -/
def inject (samples : List TelemetrySample) : List TelemetrySample :=
  match samples with
  | [] => []
  | s0 :: rest =>
    let powers := (s0 :: rest).map fun s => s.power_kw
    let hi := powers.foldl max s0.power_kw
    let lo := powers.foldl min s0.power_kw
    let n := (s0 :: rest).length
    injectFrom (hi - lo + leakExcessDraw) (n - n / 5) 0 (s0 :: rest)

/-- Mean power of the window: the reference profile (§4.2, §5). -/
def meanPower (samples : List TelemetrySample) : ℚ :=
  (samples.map fun s => s.power_kw).sum / samples.length

/-- Modelled from the spec: `score_window(samples, simulate_leak)` (§4.2),
one verdict per input sample, in input order. -/
def score_window (samples : List TelemetrySample) (simulate_leak : Bool) :
    Except DetectorError (List AnomalyVerdict) :=
  match samples with
  | [] => .error .insufficientData
  | _ :: _ =>
    if samples.length < window_min then
      .ok (samples.map fun s => { timestamp := s.timestamp, is_anomaly := false, score := 0 })
    else
      let mu := meanPower samples
      let scored := if simulate_leak then inject samples else samples
      .ok (scored.map fun s =>
        { timestamp := s.timestamp
          is_anomaly := decide (anomalyThreshold < s.power_kw - mu)
          score := s.power_kw - mu })

/-! ### Differential diagnostics engine (§4.3)

Modelled from the spec: the backend diagnostics engine is not among the
available sources.  A pure decision procedure over a
(WeatherMode, zone set) pair; the coverage thresholds are configuration
(§9 notes the original constants are not in the available material). -/

inductive WeatherMode
  | CLEAR
  | RAIN
deriving DecidableEq

inductive Severity
  | WARNING
  | CRITICAL
deriving DecidableEq

inductive GeometryKind
  | point
  | polygon
deriving DecidableEq

structure SatelliteZone where
  kind : GeometryKind
  severity : Severity
  area : ℚ
deriving DecidableEq

inductive Classification
  | RAIN
  | LEAK
  | INCONCLUSIVE
deriving DecidableEq

structure DiagnosisResult where
  classification : Classification
  logic_chain : List String
deriving DecidableEq

/-- Fixed reference area (city grid cell size, configuration). -/
def referenceArea : ℚ := 100

/-- Fraction of the reference area a WARNING footprint must cover to count
as a rain background (configuration). -/
def broadCoverageFrac : ℚ := 80 / 100

/-- Fraction of the reference area below which a CRITICAL footprint counts
as small and localized (configuration). -/
def smallFootprintFrac : ℚ := 10 / 100

def hasCriticalZone (zones : List SatelliteZone) : Bool :=
  zones.any fun z => decide (z.severity = Severity.CRITICAL)

/-- Total footprint of the WARNING polygon zones. -/
def warningCoverage (zones : List SatelliteZone) : ℚ :=
  ((zones.filter fun z =>
      decide (z.kind = GeometryKind.polygon) && decide (z.severity = Severity.WARNING)).map
    fun z => z.area).sum

def broadWarningBackground (zones : List SatelliteZone) : Bool :=
  decide (broadCoverageFrac * referenceArea ≤ warningCoverage zones)

def hasSmallCriticalZone (zones : List SatelliteZone) : Bool :=
  zones.any fun z =>
    decide (z.severity = Severity.CRITICAL) &&
      decide (z.area ≤ smallFootprintFrac * referenceArea)

/-- Modelled from the spec: the differential diagnosis decision procedure
(§4.3), with its judge-facing reasoning trail. -/
def diagnose (mode : WeatherMode) (zones : List SatelliteZone) : DiagnosisResult :=
  match mode with
  | .CLEAR =>
    if hasCriticalZone zones then
      { classification := .LEAK
        logic_chain := ["WEATHER=CLEAR", "CRITICAL ZONE PRESENT", "CLASSIFY: LEAK"] }
    else
      { classification := .INCONCLUSIVE
        logic_chain := ["WEATHER=CLEAR", "NO CRITICAL ZONE", "CLASSIFY: INCONCLUSIVE"] }
  | .RAIN =>
    if !hasCriticalZone zones && broadWarningBackground zones then
      { classification := .RAIN
        logic_chain :=
          ["WEATHER=RAIN", "NO CRITICAL ZONE", "BROAD WARNING COVERAGE", "CLASSIFY: RAIN"] }
    else if hasSmallCriticalZone zones && broadWarningBackground zones then
      { classification := .LEAK
        logic_chain :=
          ["WEATHER=RAIN", "SMALL LOCALIZED CRITICAL ZONE", "BROAD WARNING BACKGROUND",
            "CLASSIFY: LEAK"] }
    else
      { classification := .INCONCLUSIVE
        logic_chain := ["WEATHER=RAIN", "PATTERN NOT SEPARABLE", "CLASSIFY: INCONCLUSIVE"] }

/-! ### Geospatial correlator (§4.4)

Modelled from the spec: the backend correlator is not among the available
sources.  `nearest_consumer` selects the consumer minimizing the
haversine distance to the leak coordinate, ties broken by lowest id;
an empty registry fails with `EmptyRegistryError`. -/

inductive GeoError
  | emptyRegistry
deriving DecidableEq

structure ConsumerRecord where
  id : ℕ
  name : String
  lat : ℝ
  lon : ℝ
  locality : String
  family_size : ℕ

noncomputable def consumerDistance (leak : ℝ × ℝ) (c : ConsumerRecord) : ℝ :=
  haversineSpec leak.1 leak.2 c.lat c.lon

/-- `a` is at least as good a candidate as `b`: strictly nearer, or equally
near with an id no larger. -/
def nearerOrEq (leak : ℝ × ℝ) (a b : ConsumerRecord) : Prop :=
  consumerDistance leak a < consumerDistance leak b ∨
    (consumerDistance leak a = consumerDistance leak b ∧ a.id ≤ b.id)

open Classical in
/-- Keep the strictly better of two candidates (nearer, or equally near
with strictly lower id). -/
noncomputable def pickNearer (leak : ℝ × ℝ) (best cand : ConsumerRecord) : ConsumerRecord :=
  if consumerDistance leak cand < consumerDistance leak best ∨
      (consumerDistance leak cand = consumerDistance leak best ∧ cand.id < best.id) then
    cand
  else best

/-- Modelled from the spec: `nearest_consumer(leak_coord, consumers)`
(§4.4). -/
noncomputable def nearest_consumer (leak : ℝ × ℝ) (consumers : List ConsumerRecord) :
    Except GeoError (ConsumerRecord × ℝ) :=
  match consumers with
  | [] => .error .emptyRegistry
  | c :: cs =>
    let best := cs.foldl (pickNearer leak) c
    .ok (best, consumerDistance leak best)

/-! ### MapView user-click enrichment

From `src/frontend/src/App.js` (`handleUserClick`, lines 484–503 and
917–937): a clicked map user is enriched with dossier defaults and a
`distance_to_leak_km` field that is the rounded haversine distance when a
leak location is loaded and the string `N/A` otherwise. -/

structure MapUser where
  id : Option String
  name : Option String
  locality : Option String
  lat : ℝ
  lon : ℝ
  family_size : Option ℕ

/-- The value of the `distance_to_leak_km` field: a number in km rendered
with two decimals, or the string `N/A`. -/
inductive DistanceToLeak
  | km (d : ℝ)
  | na

structure EnrichedUser where
  id : String
  name : String
  location : String
  lat : ℝ
  lon : ℝ
  family_members : ℕ
  status : String
  bsr_code : String
  bsr_description : String
  est_cost : String
  contractor : String
  repair_priority : String
  distance_to_leak_km : DistanceToLeak

/-- `toFixed(2)` idealised over `ℝ`: round to two decimal places. -/
noncomputable def roundTo2 (x : ℝ) : ℝ := (round (x * 100) : ℤ) / 100

/-- `handleUserClick` from `src/frontend/src/App.js` (lines 484–503 /
917–937). -/
noncomputable def handleUserClick (leakMode : Bool) (leakLocation : Option (ℝ × ℝ))
    (user : MapUser) : EnrichedUser :=
  { name := user.name.getD "Unknown User"
    id := user.id.getD "N/A"
    location := user.locality.getD "Unknown"
    lat := user.lat
    lon := user.lon
    family_members := user.family_size.getD 4
    status := if leakMode then "POTENTIAL_IMPACT" else "NORMAL"
    bsr_code := "PHED-2024-Item-4.2"
    bsr_description := "Standard Pipe Repair"
    est_cost := "Rs 8,500"
    contractor := "Jal Nigam Maintenance"
    repair_priority := if leakMode then "P1 - IMMEDIATE" else "P3 - ROUTINE"
    distance_to_leak_km :=
      match leakLocation with
      | some l => .km (roundTo2 (calculateDistance user.lat user.lon l.1 l.2))
      | none => .na }

/-! ### App affected-user effect and state transitions

From `src/unnamed/part_000` (the App component): the leak-mode effect
(lines 52–108) fetches the affected user and, when the fetch fails,
substitutes a hardcoded offline fallback record; when leak mode is off it
clears the selected user.  `MapView`'s `onUserSelect` (wired at line
291–296) stores a clicked user's record unconditionally. -/

/-- The backend's full affected-user result (§6, `AffectedUserResult`):
every field populated. -/
structure AffectedUserResult where
  id : String
  name : String
  location : String
  locality : String
  coordinates : ℚ × ℚ
  distance_to_leak_km : ℚ
  status : String
  last_update : String
  family_members : ℕ
  water_usage : String
  bsr_code : String
  bsr_description : String
  est_cost : String
  contractor : String
  repair_priority : String
deriving DecidableEq

/-- The record shape the App stores in `selectedUser`: the fields the
offline fallback omits (`locality`, `coordinates`,
`distance_to_leak_km`) are optional. -/
structure SelectedUser where
  id : String
  name : String
  location : String
  status : String
  last_update : String
  family_members : ℕ
  water_usage : String
  bsr_code : String
  bsr_description : String
  est_cost : String
  contractor : String
  repair_priority : String
  locality : Option String
  coordinates : Option (ℚ × ℚ)
  distance_to_leak_km : Option ℚ
deriving DecidableEq

/-- The success path of the effect: every field of the backend result is
carried over (lines 64–81 of `src/unnamed/part_000`). -/
def toSelectedUser (u : AffectedUserResult) : SelectedUser :=
  { id := u.id
    name := u.name
    location := u.location
    status := u.status
    last_update := u.last_update
    family_members := u.family_members
    water_usage := u.water_usage
    bsr_code := u.bsr_code
    bsr_description := u.bsr_description
    est_cost := u.est_cost
    contractor := u.contractor
    repair_priority := u.repair_priority
    locality := some u.locality
    coordinates := some u.coordinates
    distance_to_leak_km := some u.distance_to_leak_km }

/-- The hardcoded offline fallback record (lines 85–98 of
`src/unnamed/part_000`); it has no locality, coordinates or distance. -/
def offlineFallbackUser : SelectedUser :=
  { id := "JA-OFFLINE"
    name := "DEMO USER"
    location := "ZONE_4_SECTOR_B"
    status := "CRITICAL_PRESSURE_DROP"
    last_update := "T-MINUS 00:02:00"
    family_members := 4
    water_usage := "350 L/DAY"
    bsr_code := "PHED-2024-Item-4.2"
    bsr_description := "Pipe Repair > 100mm DI"
    est_cost := "Rs 12,475"
    contractor := "L&T Civil (Auto-Assigned)"
    repair_priority := "P1 - IMMEDIATE"
    locality := none
    coordinates := none
    distance_to_leak_km := none }

/-- The selected-user outcome of the leak-mode effect of
`src/unnamed/part_000` (lines 52–108), as a function of the leak mode and
of the fetch outcome (`none` = the `/affected-user` request failed). -/
def affectedUserEffect (leakMode : Bool) (fetchResult : Option AffectedUserResult) :
    Option SelectedUser :=
  if leakMode then
    match fetchResult with
    | some u => some (toSelectedUser u)
    | none => some offlineFallbackUser
  else none

structure AppState where
  leakMode : Bool
  selectedUser : Option SelectedUser
  isScanning : Bool
  pendingLookup : Bool
deriving DecidableEq

def initialAppState : AppState :=
  { leakMode := false, selectedUser := none, isScanning := false, pendingLookup := false }

/-- The externally triggered transitions of the App component of
`src/unnamed/part_000`: the leak-scenario button, the completion of the
affected-user lookup (success or failure), and a map user click forwarded
by `MapView`'s `onUserSelect`. -/
inductive AppEvent
  | toggleLeak
  | lookupSuccess (u : AffectedUserResult)
  | lookupFailure
  | userClick (u : SelectedUser)

/-- One state transition of the App component of `src/unnamed/part_000`:
toggling leak mode runs the leak-mode effect (arming the delayed lookup,
or clearing the selected user), a completed lookup stores the effect's
outcome, and a user click stores the clicked record unconditionally. -/
def stepApp (s : AppState) (e : AppEvent) : AppState :=
  match e with
  | .toggleLeak =>
    if s.leakMode then
      { s with leakMode := false, selectedUser := none, isScanning := false,
               pendingLookup := false }
    else
      { s with leakMode := true, isScanning := true, pendingLookup := true }
  | .lookupSuccess u =>
    if s.pendingLookup then
      { s with selectedUser := affectedUserEffect true (some u), isScanning := false,
               pendingLookup := false }
    else s
  | .lookupFailure =>
    if s.pendingLookup then
      { s with selectedUser := affectedUserEffect true none, isScanning := false,
               pendingLookup := false }
    else s
  | .userClick u => { s with selectedUser := some u }

/-- App states reachable from the initial state without any map
user-click event. -/
inductive ReachableNoClick : AppState → Prop
  | start : ReachableNoClick initialAppState
  | step {s : AppState} {e : AppEvent} : ReachableNoClick s →
      (∀ u, e ≠ AppEvent.userClick u) → ReachableNoClick (stepApp s e)

/-- A concrete enriched record as `MapView`'s `onUserSelect` hands to the
App after a click in normal mode. -/
def sampleClickedUser : SelectedUser :=
  { id := "JA-0001"
    name := "Test User"
    location := "MALVIYA_NAGAR"
    status := "NORMAL"
    last_update := ""
    family_members := 4
    water_usage := ""
    bsr_code := "PHED-2024-Item-4.2"
    bsr_description := "Standard Pipe Repair"
    est_cost := "Rs 8,500"
    contractor := "Jal Nigam Maintenance"
    repair_priority := "P3 - ROUTINE"
    locality := some "MALVIYA_NAGAR"
    coordinates := some (269 / 10, 758 / 10)
    distance_to_leak_km := none }

/-- A concrete consumer record, used as a witness registry. -/
def witnessConsumer : ConsumerRecord :=
  { id := 7, name := "A", lat := 0, lon := 0, locality := "L", family_size := 3 }

/-- A constant 5 kW series of the minimum window length. -/
def constantSeries : List TelemetrySample :=
  (List.range window_min).map fun i => { timestamp := i, power_kw := 5 }

/-! ## Helper lemmas -/

lemma sin_half_sq (x : ℝ) : Real.sin (x / 2) ^ 2 = (1 - Real.cos x) / 2 := by
  have h2 : (2 : ℝ) * (x / 2) = x := by ring
  rw [Real.sin_sq, Real.cos_sq, h2]; ring

lemma havA_eq (p1 p2 d : ℝ) :
    havA p1 p2 d =
      (1 - (Real.sin p1 * Real.sin p2 + Real.cos p1 * Real.cos p2 * Real.cos d)) / 2 := by
  unfold havA
  rw [sin_half_sq, sin_half_sq, Real.cos_sub]
  ring

lemma cos_angle_le_one (p1 p2 d : ℝ) :
    Real.sin p1 * Real.sin p2 + Real.cos p1 * Real.cos p2 * Real.cos d ≤ 1 := by
  rcases le_or_lt 0 (Real.cos p1 * Real.cos p2) with hc | hc
  · nlinarith [sq_nonneg (Real.sin p1 - Real.sin p2), sq_nonneg (Real.cos p1 - Real.cos p2),
      Real.sin_sq_add_cos_sq p1, Real.sin_sq_add_cos_sq p2, Real.cos_le_one d]
  · nlinarith [sq_nonneg (Real.sin p1 - Real.sin p2), sq_nonneg (Real.cos p1 + Real.cos p2),
      Real.sin_sq_add_cos_sq p1, Real.sin_sq_add_cos_sq p2, Real.neg_one_le_cos d]

lemma neg_one_le_cos_angle (p1 p2 d : ℝ) :
    -1 ≤ Real.sin p1 * Real.sin p2 + Real.cos p1 * Real.cos p2 * Real.cos d := by
  rcases le_or_lt 0 (Real.cos p1 * Real.cos p2) with hc | hc
  · nlinarith [sq_nonneg (Real.sin p1 + Real.sin p2), sq_nonneg (Real.cos p1 - Real.cos p2),
      Real.sin_sq_add_cos_sq p1, Real.sin_sq_add_cos_sq p2, Real.neg_one_le_cos d]
  · nlinarith [sq_nonneg (Real.sin p1 + Real.sin p2), sq_nonneg (Real.cos p1 + Real.cos p2),
      Real.sin_sq_add_cos_sq p1, Real.sin_sq_add_cos_sq p2, Real.cos_le_one d]

lemma havA_nonneg (p1 p2 d : ℝ) : 0 ≤ havA p1 p2 d := by
  rw [havA_eq]; linarith [cos_angle_le_one p1 p2 d]

lemma havA_le_one (p1 p2 d : ℝ) : havA p1 p2 d ≤ 1 := by
  rw [havA_eq]; linarith [neg_one_le_cos_angle p1 p2 d]

/-- On `[0, 1]` the source's `atan2 √a √(1-a)` agrees with the spec's
`asin √a`. -/
lemma atan2_sqrt_eq_arcsin {a : ℝ} (h0 : 0 ≤ a) (h1 : a ≤ 1) :
    atan2 (Real.sqrt a) (Real.sqrt (1 - a)) = Real.arcsin (Real.sqrt a) := by
  rcases lt_or_eq_of_le h1 with hlt | heq
  · have hx : 0 < Real.sqrt (1 - a) := Real.sqrt_pos.mpr (by linarith)
    have hmem : Real.sqrt a ∈ Set.Ioo (-(1 : ℝ)) 1 := by
      constructor
      · linarith [Real.sqrt_nonneg a]
      · have := Real.sqrt_lt_sqrt h0 hlt
        simpa using this
    rw [atan2, if_pos hx, Real.arcsin_eq_arctan hmem, Real.sq_sqrt h0]
  · subst heq
    have hz : Real.sqrt (1 - 1) = 0 := by simp
    rw [atan2, hz]
    simp [Real.arcsin_one, Real.sqrt_one]

/-- `haversineSpec` written through the radicand helper `havA`. -/
lemma haversineSpec_eq_havA (lat1 lon1 lat2 lon2 : ℝ) :
    haversineSpec lat1 lon1 lat2 lon2 =
      2 * 6371 *
        Real.arcsin
          (Real.sqrt (havA (deg2rad lat1) (deg2rad lat2) (deg2rad lon2 - deg2rad lon1))) := rfl

/-- The implemented `calculateDistance` computes exactly the spec's
haversine formula, for all real coordinate inputs. -/
lemma calculateDistance_eq_haversineSpec (lat1 lon1 lat2 lon2 : ℝ) :
    calculateDistance lat1 lon1 lat2 lon2 = haversineSpec lat1 lon1 lat2 lon2 := by
  rw [haversineSpec_eq_havA]
  simp only [calculateDistance, deg2rad]
  have e1 : (lat2 - lat1) * Real.pi / 180 =
      lat2 * Real.pi / 180 - lat1 * Real.pi / 180 := by ring
  have e2 : (lon2 - lon1) * Real.pi / 180 =
      lon2 * Real.pi / 180 - lon1 * Real.pi / 180 := by ring
  rw [e1, e2]
  set p1 := lat1 * Real.pi / 180
  set p2 := lat2 * Real.pi / 180
  set o1 := lon1 * Real.pi / 180
  set o2 := lon2 * Real.pi / 180
  have hrad : Real.sin ((p2 - p1) / 2) * Real.sin ((p2 - p1) / 2) +
      Real.cos p1 * Real.cos p2 *
        (Real.sin ((o2 - o1) / 2) * Real.sin ((o2 - o1) / 2)) =
      havA p1 p2 (o2 - o1) := by
    unfold havA; ring
  rw [hrad, atan2_sqrt_eq_arcsin (havA_nonneg _ _ _) (havA_le_one _ _ _)]
  ring

lemma havA_comm (p1 p2 d : ℝ) : havA p2 p1 (-d) = havA p1 p2 d := by
  unfold havA
  have e : p1 - p2 = -(p2 - p1) := by ring
  rw [e]
  simp only [neg_div, Real.sin_neg, neg_sq]
  ring

lemma calculateDistance_self (lat lon : ℝ) : calculateDistance lat lon lat lon = 0 := by
  rw [calculateDistance_eq_haversineSpec, haversineSpec_eq_havA]
  simp [havA]

lemma calculateDistance_symm (lat1 lon1 lat2 lon2 : ℝ) :
    calculateDistance lat1 lon1 lat2 lon2 = calculateDistance lat2 lon2 lat1 lon1 := by
  rw [calculateDistance_eq_haversineSpec, calculateDistance_eq_haversineSpec,
    haversineSpec_eq_havA, haversineSpec_eq_havA]
  have e : deg2rad lon1 - deg2rad lon2 = -(deg2rad lon2 - deg2rad lon1) := by ring
  rw [e, havA_comm]

/-! ### Correlator lemmas -/

lemma nearerOrEq_refl (leak : ℝ × ℝ) (a : ConsumerRecord) : nearerOrEq leak a a :=
  Or.inr ⟨rfl, le_refl _⟩

lemma nearerOrEq_trans {leak : ℝ × ℝ} {a b c : ConsumerRecord}
    (h1 : nearerOrEq leak a b) (h2 : nearerOrEq leak b c) : nearerOrEq leak a c := by
  rcases h1 with h1 | ⟨h1e, h1i⟩ <;> rcases h2 with h2 | ⟨h2e, h2i⟩
  · exact Or.inl (h1.trans h2)
  · exact Or.inl (by rw [← h2e]; exact h1)
  · exact Or.inl (by rw [h1e]; exact h2)
  · exact Or.inr ⟨h1e.trans h2e, h1i.trans h2i⟩

lemma pickNearer_left (leak : ℝ × ℝ) (b c : ConsumerRecord) :
    nearerOrEq leak (pickNearer leak b c) b := by
  unfold pickNearer
  split
  · rename_i h
    rcases h with h | ⟨he, hi⟩
    · exact Or.inl h
    · exact Or.inr ⟨he, le_of_lt hi⟩
  · exact nearerOrEq_refl leak b

lemma pickNearer_right (leak : ℝ × ℝ) (b c : ConsumerRecord) :
    nearerOrEq leak (pickNearer leak b c) c := by
  unfold pickNearer
  split
  · exact nearerOrEq_refl leak c
  · rename_i h
    push_neg at h
    obtain ⟨h1, h2⟩ := h
    rcases lt_or_eq_of_le h1 with hlt | heq
    · exact Or.inl hlt
    · exact Or.inr ⟨heq, h2 heq.symm⟩

lemma pickNearer_eq_or (leak : ℝ × ℝ) (b c : ConsumerRecord) :
    pickNearer leak b c = b ∨ pickNearer leak b c = c := by
  unfold pickNearer
  split
  · exact Or.inr rfl
  · exact Or.inl rfl

lemma foldl_pickNearer_spec (leak : ℝ × ℝ) :
    ∀ (cs : List ConsumerRecord) (b : ConsumerRecord),
      (cs.foldl (pickNearer leak) b = b ∨ cs.foldl (pickNearer leak) b ∈ cs) ∧
      nearerOrEq leak (cs.foldl (pickNearer leak) b) b ∧
      ∀ x ∈ cs, nearerOrEq leak (cs.foldl (pickNearer leak) b) x := by
  intro cs
  induction cs with
  | nil =>
    intro b
    refine ⟨Or.inl rfl, nearerOrEq_refl leak b, ?_⟩
    intro x hx
    exact absurd hx (List.not_mem_nil x)
  | cons c cs ih =>
    intro b
    simp only [List.foldl_cons]
    obtain ⟨hmem, hle, hall⟩ := ih (pickNearer leak b c)
    refine ⟨?_, nearerOrEq_trans hle (pickNearer_left leak b c), ?_⟩
    · rcases hmem with h | h
      · rcases pickNearer_eq_or leak b c with hb | hc
        · exact Or.inl (h.trans hb)
        · exact Or.inr (by rw [h, hc]; exact List.mem_cons_self c cs)
      · exact Or.inr (List.mem_cons_of_mem c h)
    · intro x hx
      rcases List.mem_cons.mp hx with rfl | hx'
      · exact nearerOrEq_trans hle (pickNearer_right leak b x)
      · exact hall x hx'

lemma nearerOrEq_elim {leak : ℝ × ℝ} {a b : ConsumerRecord} (h : nearerOrEq leak a b) :
    consumerDistance leak a ≤ consumerDistance leak b ∧
      (consumerDistance leak b = consumerDistance leak a → a.id ≤ b.id) := by
  rcases h with h | ⟨he, hi⟩
  · exact ⟨h.le, fun hc => absurd h (by rw [hc]; exact lt_irrefl _)⟩
  · exact ⟨he.le, fun _ => hi⟩

/-! ### Anomaly detector lemmas -/

lemma le_foldl_max : ∀ (l : List ℚ) (a : ℚ), a ≤ l.foldl max a := by
  intro l
  induction l with
  | nil => intro a; exact le_refl a
  | cons x xs ih => intro a; exact le_trans (le_max_left a x) (ih (max a x))

lemma mem_le_foldl_max : ∀ (l : List ℚ) (a x : ℚ), x ∈ l → x ≤ l.foldl max a := by
  intro l
  induction l with
  | nil => intro a x hx; exact absurd hx (List.not_mem_nil x)
  | cons y ys ih =>
    intro a x hx
    rcases List.mem_cons.mp hx with rfl | hx'
    · exact le_trans (le_max_right a x) (le_foldl_max ys (max a x))
    · exact ih (max a y) x hx'

lemma foldl_min_le : ∀ (l : List ℚ) (a : ℚ), l.foldl min a ≤ a := by
  intro l
  induction l with
  | nil => intro a; exact le_refl a
  | cons x xs ih => intro a; exact le_trans (ih (min a x)) (min_le_left a x)

lemma foldl_min_le_mem : ∀ (l : List ℚ) (a x : ℚ), x ∈ l → l.foldl min a ≤ x := by
  intro l
  induction l with
  | nil => intro a x hx; exact absurd hx (List.not_mem_nil x)
  | cons y ys ih =>
    intro a x hx
    rcases List.mem_cons.mp hx with rfl | hx'
    · exact le_trans (foldl_min_le ys (min a x)) (min_le_right a x)
    · exact ih (min a y) x hx'

lemma sum_le_length_mul {b : ℚ} : ∀ {l : List ℚ}, (∀ x ∈ l, x ≤ b) →
    l.sum ≤ (l.length : ℚ) * b := by
  intro l
  induction l with
  | nil => intro _; simp
  | cons x xs ih =>
    intro h
    have hx := h x (List.mem_cons_self x xs)
    have hxs := ih fun y hy => h y (List.mem_cons_of_mem x hy)
    simp only [List.sum_cons, List.length_cons]
    push_cast
    linarith

lemma meanPower_le {samples : List TelemetrySample} {b : ℚ} (hne : samples ≠ [])
    (h : ∀ s ∈ samples, s.power_kw ≤ b) : meanPower samples ≤ b := by
  unfold meanPower
  have hpos : (0 : ℚ) < (samples.length : ℚ) := by
    exact_mod_cast List.length_pos.mpr hne
  rw [div_le_iff₀ hpos]
  have hsum : (samples.map fun s => s.power_kw).sum ≤
      (((samples.map fun s => s.power_kw).length : ℕ) : ℚ) * b := by
    apply sum_le_length_mul
    intro x hx
    obtain ⟨s, hs, rfl⟩ := List.mem_map.mp hx
    exact h s hs
  rw [List.length_map] at hsum
  rw [mul_comm]
  exact hsum

lemma injectFrom_length (delta : ℚ) (start : ℕ) :
    ∀ (i : ℕ) (l : List TelemetrySample), (injectFrom delta start i l).length = l.length := by
  intro i l
  induction l generalizing i with
  | nil => rfl
  | cons s rest ih => simp only [injectFrom, List.length_cons, ih]

lemma injectFrom_get? (delta : ℚ) (start : ℕ) :
    ∀ (l : List TelemetrySample) (i k : ℕ),
      (injectFrom delta start i l)[k]? =
        (l[k]?).map fun s =>
          if start ≤ i + k then { s with power_kw := s.power_kw + delta } else s := by
  intro l
  induction l with
  | nil => intro i k; simp [injectFrom]
  | cons s rest ih =>
    intro i k
    cases k with
    | zero => simp [injectFrom]
    | succ k =>
      simp only [injectFrom, List.getElem?_cons_succ, ih (i + 1) k]
      have e : i + 1 + k = i + (k + 1) := by omega
      rw [e]

lemma injectFrom_map_timestamp (delta : ℚ) (start : ℕ) :
    ∀ (l : List TelemetrySample) (i : ℕ),
      (injectFrom delta start i l).map (fun s => s.timestamp) =
        l.map fun s => s.timestamp := by
  intro l
  induction l with
  | nil => intro i; rfl
  | cons s rest ih =>
    intro i
    simp only [injectFrom, List.map_cons, ih (i + 1)]
    congr 1
    split <;> rfl

lemma inject_cons (s0 : TelemetrySample) (rest : List TelemetrySample) :
    inject (s0 :: rest) =
      injectFrom
        (((s0 :: rest).map fun s => s.power_kw).foldl max s0.power_kw -
            ((s0 :: rest).map fun s => s.power_kw).foldl min s0.power_kw + leakExcessDraw)
        ((s0 :: rest).length - (s0 :: rest).length / 5) 0 (s0 :: rest) := rfl

lemma inject_length (samples : List TelemetrySample) :
    (inject samples).length = samples.length := by
  cases samples with
  | nil => rfl
  | cons s0 rest => rw [inject_cons, injectFrom_length]

lemma inject_map_timestamp (samples : List TelemetrySample) :
    (inject samples).map (fun s => s.timestamp) = samples.map fun s => s.timestamp := by
  cases samples with
  | nil => rfl
  | cons s0 rest => rw [inject_cons, injectFrom_map_timestamp]

lemma score_window_long {samples : List TelemetrySample} (hne : samples ≠ [])
    (hlen : ¬ samples.length < window_min) (flag : Bool) :
    score_window samples flag =
      .ok ((if flag then inject samples else samples).map fun s =>
        { timestamp := s.timestamp
          is_anomaly := decide (anomalyThreshold < s.power_kw - meanPower samples)
          score := s.power_kw - meanPower samples }) := by
  cases samples with
  | nil => exact absurd rfl hne
  | cons s0 rest => simp only [score_window, if_neg hlen]

lemma score_window_leak_anomaly {samples : List TelemetrySample}
    (hlen : window_min ≤ samples.length) :
    ∃ vs, score_window samples true = .ok vs ∧ ∃ v ∈ vs, v.is_anomaly = true := by
  cases samples with
  | nil => simp [window_min] at hlen
  | cons s0 rest =>
    have h10 : 10 ≤ (s0 :: rest).length := hlen
    have hne : s0 :: rest ≠ [] := List.cons_ne_nil s0 rest
    have hnlt : ¬ (s0 :: rest).length < window_min := not_lt.mpr hlen
    have hsw := score_window_long hne hnlt true
    rw [if_pos rfl] at hsw
    refine ⟨_, hsw, ?_⟩
    have hj : (s0 :: rest).length - (s0 :: rest).length / 5 < (s0 :: rest).length := by omega
    have hjI : (s0 :: rest).length - (s0 :: rest).length / 5 < (inject (s0 :: rest)).length := by
      rw [inject_length]; exact hj
    have hjV : (s0 :: rest).length - (s0 :: rest).length / 5 <
        ((inject (s0 :: rest)).map fun s =>
          ({ timestamp := s.timestamp
             is_anomaly := decide (anomalyThreshold < s.power_kw - meanPower (s0 :: rest))
             score := s.power_kw - meanPower (s0 :: rest) } : AnomalyVerdict)).length := by
      rw [List.length_map]; exact hjI
    refine ⟨_, List.getElem_mem hjV, ?_⟩
    rw [List.getElem_map]
    have hinj? : (inject (s0 :: rest))[(s0 :: rest).length - (s0 :: rest).length / 5]? =
        some
          { (s0 :: rest)[(s0 :: rest).length - (s0 :: rest).length / 5] with
            power_kw := (s0 :: rest)[(s0 :: rest).length - (s0 :: rest).length / 5].power_kw +
              (((s0 :: rest).map fun s => s.power_kw).foldl max s0.power_kw -
                ((s0 :: rest).map fun s => s.power_kw).foldl min s0.power_kw +
                  leakExcessDraw) } := by
      rw [inject_cons, injectFrom_get?, List.getElem?_eq_getElem hj]
      simp
    have hinj : (inject (s0 :: rest))[(s0 :: rest).length - (s0 :: rest).length / 5] =
        { (s0 :: rest)[(s0 :: rest).length - (s0 :: rest).length / 5] with
          power_kw := (s0 :: rest)[(s0 :: rest).length - (s0 :: rest).length / 5].power_kw +
            (((s0 :: rest).map fun s => s.power_kw).foldl max s0.power_kw -
              ((s0 :: rest).map fun s => s.power_kw).foldl min s0.power_kw +
                leakExcessDraw) } := by
      have h := List.getElem?_eq_getElem hjI
      rw [hinj?] at h
      exact (Option.some.inj h).symm
    rw [hinj]
    simp only [decide_eq_true_eq]
    have hmem : (s0 :: rest)[(s0 :: rest).length - (s0 :: rest).length / 5] ∈ s0 :: rest :=
      List.getElem_mem hj
    have hlo : ((s0 :: rest).map fun s => s.power_kw).foldl min s0.power_kw ≤
        (s0 :: rest)[(s0 :: rest).length - (s0 :: rest).length / 5].power_kw :=
      foldl_min_le_mem _ _ _ (List.mem_map_of_mem _ hmem)
    have hmu : meanPower (s0 :: rest) ≤
        ((s0 :: rest).map fun s => s.power_kw).foldl max s0.power_kw :=
      meanPower_le hne fun s hs => mem_le_foldl_max _ _ _ (List.mem_map_of_mem _ hs)
    have hth : anomalyThreshold = 2 := rfl
    have hex : leakExcessDraw = 3 := rfl
    rw [hth, hex] at *
    linarith

/-! ## Claim theorems -/

/-- C3: The implemented distance function (`calculateDistance`, which uses
the `atan2` formulation with `R = 6371`) computes, for every pair of
coordinates in degrees, the great-circle haversine distance defined by the
spec's formula `2R·asin(√(sin²(Δlat/2) + cos(lat1)·cos(lat2)·sin²(Δlon/2)))`
with `R = 6371` km. -/
theorem calculateDistance_matches_spec_formula (lat1 lon1 lat2 lon2 : ℝ) :
    calculateDistance lat1 lon1 lat2 lon2 = haversineSpec lat1 lon1 lat2 lon2 :=
  calculateDistance_eq_haversineSpec lat1 lon1 lat2 lon2

/-- C4: For every coordinate `X`, `distance(X, X) = 0`, and for every pair
of coordinates `X`, `Y`, `distance(X, Y) = distance(Y, X)`. -/
theorem calculateDistance_self_zero_and_symm :
    (∀ lat lon : ℝ, calculateDistance lat lon lat lon = 0) ∧
    (∀ lat1 lon1 lat2 lon2 : ℝ,
      calculateDistance lat1 lon1 lat2 lon2 = calculateDistance lat2 lon2 lat1 lon1) :=
  ⟨calculateDistance_self, calculateDistance_symm⟩

/-- C5: For the flow estimator `estimate_flow`, every valid (non-negative)
power below the idle threshold `P0` yields flow exactly 0, and for powers
`P0 ≤ p₁ ≤ p₂` the returned flow is monotone non-decreasing (capped at the
maximum rated flow). -/
theorem estimate_flow_idle_zero_and_monotone :
    (∀ p : ℚ, 0 ≤ p → p < P0 → estimate_flow p = .ok 0) ∧
    (∀ p₁ p₂ f₁ f₂ : ℚ, P0 ≤ p₁ → p₁ ≤ p₂ →
      estimate_flow p₁ = .ok f₁ → estimate_flow p₂ = .ok f₂ → f₁ ≤ f₂) := by
  constructor
  · intro p h0 hP
    unfold estimate_flow
    rw [if_neg (not_lt.mpr h0), if_pos hP]
  · intro p₁ p₂ f₁ f₂ hP hle h1 h2
    have hP0 : (0 : ℚ) ≤ P0 := by norm_num [P0]
    unfold estimate_flow at h1 h2
    rw [if_neg (not_lt.mpr (hP0.trans hP)), if_neg (not_lt.mpr hP)] at h1
    rw [if_neg (not_lt.mpr (hP0.trans (hP.trans hle))), if_neg (not_lt.mpr (hP.trans hle))] at h2
    simp only [Except.ok.injEq] at h1 h2
    subst h1; subst h2
    exact min_le_min (le_refl _)
      (mul_le_mul_of_nonneg_left (by linarith) (by norm_num [flowSlope]))

lemma estimate_flow_three : estimate_flow 3 = .ok 150 := by
  norm_num [estimate_flow, P0, flowSlope, maxRatedFlow, min_def]

lemma estimate_flow_four : estimate_flow 4 = .ok 300 := by
  norm_num [estimate_flow, P0, flowSlope, maxRatedFlow, min_def]

/-- C5 witness: concrete evaluations at 1 kW (idle) and 3 kW ≤ 4 kW. -/
theorem estimate_flow_idle_zero_and_monotone_witness :
    ((0 : ℚ) ≤ 1 ∧ (1 : ℚ) < P0 ∧ estimate_flow 1 = .ok 0) ∧
    (P0 ≤ (3 : ℚ) ∧ (3 : ℚ) ≤ 4 ∧
      estimate_flow 3 = .ok 150 ∧ estimate_flow 4 = .ok 300 ∧ (150 : ℚ) ≤ 300) :=
  ⟨⟨by norm_num, by norm_num [P0],
      estimate_flow_idle_zero_and_monotone.1 1 (by norm_num) (by norm_num [P0])⟩,
    ⟨by norm_num [P0], by norm_num, estimate_flow_three, estimate_flow_four,
      estimate_flow_idle_zero_and_monotone.2 3 4 150 300 (by norm_num [P0]) (by norm_num)
        estimate_flow_three estimate_flow_four⟩⟩

lemma hasSmallCriticalZone_critical {zones : List SatelliteZone}
    (h : hasSmallCriticalZone zones = true) : hasCriticalZone zones = true := by
  unfold hasSmallCriticalZone at h
  unfold hasCriticalZone
  rw [List.any_eq_true] at h ⊢
  obtain ⟨z, hz, hp⟩ := h
  rw [Bool.and_eq_true] at hp
  exact ⟨z, hz, hp.1⟩

/-- C1: The differential diagnostics truth table: CLEAR with a CRITICAL
zone yields LEAK; RAIN with broad WARNING coverage and no CRITICAL zone
yields RAIN; RAIN with a small CRITICAL zone on a broad WARNING background
yields LEAK; CLEAR with no zones yields INCONCLUSIVE. -/
theorem diagnose_truth_table :
    (∀ zones, hasCriticalZone zones = true →
      (diagnose .CLEAR zones).classification = .LEAK) ∧
    (∀ zones, hasCriticalZone zones = false → broadWarningBackground zones = true →
      (diagnose .RAIN zones).classification = .RAIN) ∧
    (∀ zones, hasSmallCriticalZone zones = true → broadWarningBackground zones = true →
      (diagnose .RAIN zones).classification = .LEAK) ∧
    (diagnose .CLEAR []).classification = .INCONCLUSIVE := by
  refine ⟨?_, ?_, ?_, rfl⟩
  · intro zones h
    simp [diagnose, h]
  · intro zones h hb
    simp [diagnose, h, hb]
  · intro zones h hb
    have hc := hasSmallCriticalZone_critical h
    simp [diagnose, h, hb, hc]

lemma broadWarning_single : broadWarningBackground [⟨.polygon, .WARNING, 85⟩] = true := by
  simp only [broadWarningBackground, warningCoverage, broadCoverageFrac, referenceArea,
    List.filter, List.map, List.sum_cons, List.sum_nil, decide_eq_true_eq]
  norm_num

lemma broadWarning_pair :
    broadWarningBackground [⟨.polygon, .CRITICAL, 5⟩, ⟨.polygon, .WARNING, 85⟩] = true := by
  simp only [broadWarningBackground, warningCoverage, broadCoverageFrac, referenceArea,
    List.filter, List.map, List.sum_cons, List.sum_nil, decide_eq_true_eq]
  norm_num

lemma smallCritical_pair :
    hasSmallCriticalZone [⟨.polygon, .CRITICAL, 5⟩, ⟨.polygon, .WARNING, 85⟩] = true := by
  simp only [hasSmallCriticalZone, smallFootprintFrac, referenceArea, List.any_cons,
    List.any_nil, Bool.or_eq_true, Bool.and_eq_true, decide_eq_true_eq]
  norm_num

/-- C1 witness: each truth-table row at a concrete zone set. -/
theorem diagnose_truth_table_witness :
    (hasCriticalZone [⟨.polygon, .CRITICAL, 5⟩] = true ∧
      (diagnose .CLEAR [⟨.polygon, .CRITICAL, 5⟩]).classification = .LEAK) ∧
    (hasCriticalZone [⟨.polygon, .WARNING, 85⟩] = false ∧
      broadWarningBackground [⟨.polygon, .WARNING, 85⟩] = true ∧
      (diagnose .RAIN [⟨.polygon, .WARNING, 85⟩]).classification = .RAIN) ∧
    (hasSmallCriticalZone [⟨.polygon, .CRITICAL, 5⟩, ⟨.polygon, .WARNING, 85⟩] = true ∧
      broadWarningBackground [⟨.polygon, .CRITICAL, 5⟩, ⟨.polygon, .WARNING, 85⟩] = true ∧
      (diagnose .RAIN
        [⟨.polygon, .CRITICAL, 5⟩, ⟨.polygon, .WARNING, 85⟩]).classification = .LEAK) :=
  ⟨⟨by decide, diagnose_truth_table.1 _ (by decide)⟩,
    ⟨by decide, broadWarning_single,
      diagnose_truth_table.2.1 _ (by decide) broadWarning_single⟩,
    ⟨smallCritical_pair, broadWarning_pair,
      diagnose_truth_table.2.2.1 _ smallCritical_pair broadWarning_pair⟩⟩

/-- C8 counterexample: with leak mode active and the `/affected-user` fetch
failing, the App's effect stores the hardcoded offline fallback — a
fabricated record that moreover lacks the locality, coordinates and
distance fields — instead of surfacing a well-typed error. -/
theorem affectedUserEffect_fallback_counterexample :
    affectedUserEffect true none = some offlineFallbackUser ∧
    offlineFallbackUser.id = "JA-OFFLINE" ∧
    offlineFallbackUser.locality = none ∧
    offlineFallbackUser.coordinates = none ∧
    offlineFallbackUser.distance_to_leak_km = none :=
  ⟨rfl, rfl, rfl, rfl, rfl⟩

/-- C8 (amended): the affected-user effect yields the backend's fully
populated result on success, yields the hardcoded (half-populated) offline
fallback record — not an error — when the fetch fails in leak mode, and
yields no record when leak mode is off. -/
theorem affectedUserEffect_characterization :
    (∀ u, affectedUserEffect true (some u) = some (toSelectedUser u) ∧
      (toSelectedUser u).locality.isSome = true ∧
      (toSelectedUser u).coordinates.isSome = true ∧
      (toSelectedUser u).distance_to_leak_km.isSome = true) ∧
    affectedUserEffect true none = some offlineFallbackUser ∧
    (∀ r, affectedUserEffect false r = none) :=
  ⟨fun _ => ⟨rfl, rfl, rfl, rfl⟩, rfl, fun _ => rfl⟩

/-- C9: for every clicked map user, the enriched record's
`distance_to_leak_km` is the haversine distance to the loaded leak
location rounded to two decimals, and the `N/A` marker when no leak
location is loaded; the field is always present. -/
theorem handleUserClick_distance_field (leakMode : Bool) (leakLocation : Option (ℝ × ℝ))
    (user : MapUser) :
    (handleUserClick leakMode leakLocation user).distance_to_leak_km =
      match leakLocation with
      | some l => .km (roundTo2 (haversineSpec user.lat user.lon l.1 l.2))
      | none => .na := by
  cases leakLocation with
  | none => rfl
  | some l => simp [handleUserClick, calculateDistance_eq_haversineSpec]

/-- C10 counterexample: from the initial state (leak mode off), a map user
click reaches a state with `leakMode = false` and a non-null
`selectedUser`, so a dossier can be displayed outside leak mode. -/
theorem stepApp_userClick_counterexample :
    (stepApp initialAppState (.userClick sampleClickedUser)).leakMode = false ∧
    (stepApp initialAppState (.userClick sampleClickedUser)).selectedUser ≠ none :=
  ⟨rfl, fun h => Option.noConfusion h⟩

lemma reachableNoClick_inv {s : AppState} (h : ReachableNoClick s) :
    s.leakMode = false → s.selectedUser = none ∧ s.pendingLookup = false := by
  induction h with
  | start => intro _; exact ⟨rfl, rfl⟩
  | @step s e _ hne ih =>
    cases e with
    | toggleLeak =>
      by_cases hm : s.leakMode
      · simp [stepApp, hm]
      · simp [stepApp, hm]
    | lookupSuccess u =>
      by_cases hp : s.pendingLookup
      · intro hfalse
        simp only [stepApp, if_pos hp] at hfalse ⊢
        exact absurd (ih hfalse).2 (by simp [hp])
      · simp only [stepApp, if_neg hp]
        exact ih
    | lookupFailure =>
      by_cases hp : s.pendingLookup
      · intro hfalse
        simp only [stepApp, if_pos hp] at hfalse ⊢
        exact absurd (ih hfalse).2 (by simp [hp])
      · simp only [stepApp, if_neg hp]
        exact ih
    | userClick u => exact absurd rfl (hne u)

/-- C10 (amended): in the App of `src/unnamed/part_000`, every state
reachable without a map user click satisfies the invariant
`leakMode = false → selectedUser = null` (the leak-mode effect's else
branch clears the selection); a map user click can break it. -/
theorem leakMode_false_selectedUser_none {s : AppState} (h : ReachableNoClick s) :
    s.leakMode = false → s.selectedUser = none :=
  fun hm => (reachableNoClick_inv h hm).1

/-- C2: over any non-empty registry, `nearest_consumer` returns a
registered consumer whose haversine distance to the leak is minimal, with
ties resolved to the lowest id, together with that distance; over an empty
registry it fails with `EmptyRegistryError`. -/
theorem nearest_consumer_minimizes :
    (∀ (leak : ℝ × ℝ) (consumers : List ConsumerRecord) (best : ConsumerRecord) (d : ℝ),
      consumers ≠ [] → nearest_consumer leak consumers = .ok (best, d) →
      best ∈ consumers ∧ d = consumerDistance leak best ∧
        ∀ c ∈ consumers,
          consumerDistance leak best ≤ consumerDistance leak c ∧
            (consumerDistance leak c = consumerDistance leak best → best.id ≤ c.id)) ∧
    (∀ leak : ℝ × ℝ, nearest_consumer leak [] = .error .emptyRegistry) := by
  constructor
  · intro leak consumers best d hne hok
    cases consumers with
    | nil => exact absurd rfl hne
    | cons c cs =>
      simp only [nearest_consumer, Except.ok.injEq, Prod.mk.injEq] at hok
      obtain ⟨hbest, hd⟩ := hok
      subst hbest
      subst hd
      obtain ⟨hmem, hle, hall⟩ := foldl_pickNearer_spec leak cs c
      refine ⟨?_, rfl, ?_⟩
      · rcases hmem with h | h
        · rw [h]; exact List.mem_cons_self c cs
        · exact List.mem_cons_of_mem c h
      · intro x hx
        rcases List.mem_cons.mp hx with rfl | hx'
        · exact nearerOrEq_elim hle
        · exact nearerOrEq_elim (hall x hx')
  · intro leak
    rfl

/-- C2 witness: a singleton registry. -/
theorem nearest_consumer_minimizes_witness :
    ([witnessConsumer] ≠ ([] : List ConsumerRecord)) ∧
    nearest_consumer (0, 0) [witnessConsumer] =
      .ok (witnessConsumer, consumerDistance (0, 0) witnessConsumer) ∧
    (witnessConsumer ∈ [witnessConsumer] ∧
      consumerDistance (0, 0) witnessConsumer = consumerDistance (0, 0) witnessConsumer ∧
      ∀ c ∈ [witnessConsumer],
        consumerDistance (0, 0) witnessConsumer ≤ consumerDistance (0, 0) c ∧
          (consumerDistance (0, 0) c = consumerDistance (0, 0) witnessConsumer →
            witnessConsumer.id ≤ c.id)) :=
  ⟨List.cons_ne_nil _ _, rfl,
    nearest_consumer_minimizes.1 (0, 0) [witnessConsumer] witnessConsumer _
      (List.cons_ne_nil _ _) rfl⟩

/-- C6 (amended): for every series at least as long as the minimum window,
`score_window` with `simulate_leak = true` yields at least one anomalous
verdict, and `score_window` is a pure function, so identical inputs give
identical outputs. -/
theorem score_window_leak_flags_and_deterministic :
    (∀ samples : List TelemetrySample, window_min ≤ samples.length →
      ∃ vs, score_window samples true = .ok vs ∧ ∃ v ∈ vs, v.is_anomaly = true) ∧
    (∀ (samples : List TelemetrySample) (flag : Bool),
      score_window samples flag = score_window samples flag) :=
  ⟨fun _ h => score_window_leak_anomaly h, fun _ _ => rfl⟩

/-- C6 counterexample: on a one-sample series (shorter than the minimum
window size) `score_window` with `simulate_leak = true` returns a single
all-normal verdict, so not every input series yields an anomalous
verdict (the empty series even fails with `InsufficientDataError`). -/
theorem score_window_short_leak_counterexample :
    score_window [{ timestamp := 0, power_kw := 5 }] true =
      .ok [{ timestamp := 0, is_anomaly := false, score := 0 }] := rfl

/-- C6 witness: the constant 5 kW series of minimum window length. -/
theorem score_window_leak_flags_and_deterministic_witness :
    window_min ≤ constantSeries.length ∧
    ∃ vs, score_window constantSeries true = .ok vs ∧ ∃ v ∈ vs, v.is_anomaly = true :=
  ⟨by decide, score_window_leak_flags_and_deterministic.1 constantSeries (by decide)⟩

/-- C7: `score_window` fails with `InsufficientDataError` exactly on the
empty series; a non-empty series shorter than the minimum window size
yields all-normal verdicts; and every non-empty series yields exactly one
verdict per input sample, in input order (same timestamp sequence). -/
theorem score_window_error_iff_empty_and_shape :
    (∀ (samples : List TelemetrySample) (flag : Bool),
      score_window samples flag = .error .insufficientData ↔ samples = []) ∧
    (∀ (samples : List TelemetrySample) (flag : Bool), samples ≠ [] →
      samples.length < window_min →
      score_window samples flag =
        .ok (samples.map fun s =>
          { timestamp := s.timestamp, is_anomaly := false, score := 0 })) ∧
    (∀ (samples : List TelemetrySample) (flag : Bool), samples ≠ [] →
      ∃ vs, score_window samples flag = .ok vs ∧
        vs.map (fun v => v.timestamp) = samples.map (fun s => s.timestamp) ∧
        vs.length = samples.length) := by
  refine ⟨?_, ?_, ?_⟩
  · intro samples flag
    cases samples with
    | nil => simp [score_window]
    | cons s rest =>
      simp only [score_window]
      constructor
      · intro h
        split at h <;> exact Except.noConfusion h
      · intro h
        exact absurd h (List.cons_ne_nil s rest)
  · intro samples flag hne hlen
    cases samples with
    | nil => exact absurd rfl hne
    | cons s rest => simp only [score_window, if_pos hlen]
  · intro samples flag hne
    by_cases hlen : samples.length < window_min
    · cases samples with
      | nil => exact absurd rfl hne
      | cons s rest =>
        have heq : score_window (s :: rest) flag =
            .ok ((s :: rest).map fun s =>
              ({ timestamp := s.timestamp, is_anomaly := false, score := 0 } :
                AnomalyVerdict)) := by
          simp only [score_window, if_pos hlen]
        refine ⟨_, heq, ?_, ?_⟩
        · rw [List.map_map]
          rfl
        · simp [List.length_map]
    · refine ⟨_, score_window_long hne hlen flag, ?_, ?_⟩
      · cases flag with
        | false =>
          simp only [Bool.false_eq_true, if_false]
          rw [List.map_map]
          rfl
        | true =>
          simp only [if_true]
          rw [List.map_map]
          exact inject_map_timestamp samples
      · cases flag with
        | false => simp [List.length_map]
        | true => simp [List.length_map, inject_length]

/-- C7 witness: the empty series and a one-sample series. -/
theorem score_window_error_iff_empty_and_shape_witness :
    (score_window [] false = .error .insufficientData ↔ ([] : List TelemetrySample) = []) ∧
    (([{ timestamp := 0, power_kw := 5 }] : List TelemetrySample) ≠ [] ∧
      ([{ timestamp := 0, power_kw := 5 }] : List TelemetrySample).length < window_min ∧
      score_window [{ timestamp := 0, power_kw := 5 }] false =
        .ok (([{ timestamp := 0, power_kw := 5 }] : List TelemetrySample).map fun s =>
          { timestamp := s.timestamp, is_anomaly := false, score := 0 })) ∧
    (∃ vs, score_window [{ timestamp := 0, power_kw := 5 }] false = .ok vs ∧
      vs.map (fun v => v.timestamp) =
        ([{ timestamp := 0, power_kw := 5 }] : List TelemetrySample).map
          (fun s => s.timestamp) ∧
      vs.length = ([{ timestamp := 0, power_kw := 5 }] : List TelemetrySample).length) :=
  ⟨score_window_error_iff_empty_and_shape.1 [] false,
    ⟨List.cons_ne_nil _ _, by decide,
      score_window_error_iff_empty_and_shape.2.1 _ false (List.cons_ne_nil _ _) (by decide)⟩,
    score_window_error_iff_empty_and_shape.2.2 _ false (List.cons_ne_nil _ _)⟩

/-- C10 witness: the invariant holds after toggling leak mode on and back
off. -/
theorem leakMode_false_selectedUser_none_witness :
    ReachableNoClick (stepApp (stepApp initialAppState .toggleLeak) .toggleLeak) ∧
    (stepApp (stepApp initialAppState .toggleLeak) .toggleLeak).leakMode = false ∧
    (stepApp (stepApp initialAppState .toggleLeak) .toggleLeak).selectedUser = none :=
  ⟨.step (.step .start (fun _ h => nomatch h)) (fun _ h => nomatch h), rfl,
    leakMode_false_selectedUser_none
      (.step (.step .start (fun _ h => nomatch h)) (fun _ h => nomatch h)) rfl⟩

end HydroLumina
